import Mathlib

/-
  Verification of the package-weight resolver `get_package_weight_map`
  from usda_mmn_utils.py (repository ProducePrices).

  The Python function is shallowly embedded below.  Strings are modelled by
  Lean `String`; pandas dataframes by lists of record structures; reading the
  reference CSV/XLSX files and the persisted package_to_pounds.csv cache is
  modelled by an explicit environment `Env`; the prints issued by the
  function are collected in the result; writing package_to_pounds.csv back is
  recorded by the `wrote` flag together with the new cache contents.
  Python exceptions are modelled by `Except PyError`.
-/

set_option maxRecDepth 8000

deriving instance DecidableEq for Except

namespace ProducePrices

/-- Kinds of Python exceptions that the translated code can raise. -/
inductive PyError where
  | valueError
  | typeError
  | indexError
deriving DecidableEq

/-- Boolean test that the first char list is an initial segment of the second. -/
def startsWithB : List Char → List Char → Bool
  | [], _ => true
  | _ :: _, [] => false
  | a :: as, b :: bs => decide (a = b) && startsWithB as bs

/-- Boolean test that `needle` occurs as a contiguous sublist of the haystack.
Models the Python substring operator `needle in s` (on the char sequence). -/
def hasSubList (needle : List Char) : List Char → Bool
  | [] => startsWithB needle []
  | b :: bs => startsWithB needle (b :: bs) || hasSubList needle bs

/-- Models the Python expression `needle in s` for strings. -/
def containsSub (needle s : String) : Bool :=
  hasSubList needle.data s.data

/-- Models the character-wise effect of `package.replace("/", " ")`:
the replaced text is one character, so the replacement is a char map. -/
def replSlash (c : Char) : Char :=
  if c = '/' then ' ' else c

/-- Splits a char list at every space, keeping empty pieces, exactly like
Python `s.split(" ")` with an explicit single-space separator. -/
def splitSpAux (cur : List Char) : List Char → List String
  | [] => [String.mk cur.reverse]
  | c :: cs =>
    if c = ' ' then String.mk cur.reverse :: splitSpAux [] cs
    else splitSpAux (c :: cur) cs

/-- Models `(package.replace("/", " ")).split(" ")` from line 329 of
usda_mmn_utils.py. -/
def pyTokens (pkg : String) : List String :=
  splitSpAux [] (pkg.data.map replSlash)

/-- Models Python `list.index(x)`: index of the first occurrence, `none`
when absent (Python raises ValueError in that case). -/
def pyIndex (l : List String) (x : String) : Option Nat :=
  match l with
  | [] => none
  | a :: as => if a = x then some 0 else (pyIndex as x).map (fun n => n + 1)

/-- Models Python list subscription `l[i]` with negative-index wrap-around;
`none` corresponds to IndexError. -/
def pyGet (l : List String) (i : Int) : Option String :=
  if 0 ≤ i then l[i.toNat]?
  else if (-i).toNat ≤ l.length then l[l.length - (-i).toNat]? else none

/-- Value of an ASCII decimal digit. -/
def digitVal? (c : Char) : Option Nat :=
  if '0' ≤ c ∧ c ≤ '9' then some (c.toNat - '0'.toNat) else none

/-- Accumulates the value of a digit string; fails on a non-digit char. -/
def digitsValAux (acc : Nat) : List Char → Option Nat
  | [] => some acc
  | c :: cs =>
    match digitVal? c with
    | none => none
    | some d => digitsValAux (10 * acc + d) cs

/-- Models Python `int(s)` on the token strings appearing here: an optional
sign followed by at least one decimal digit (the tokens produced by
splitting on spaces contain no whitespace, so the whitespace stripping of
the Python builtin is immaterial).  `none` corresponds to ValueError. -/
def pyInt? (s : String) : Option Int :=
  match s.data with
  | [] => none
  | '-' :: cs =>
    if cs = [] then none else (digitsValAux 0 cs).map (fun n => -(n : Int))
  | '+' :: cs =>
    if cs = [] then none else (digitsValAux 0 cs).map (fun n => (n : Int))
  | cs => (digitsValAux 0 cs).map (fun n => (n : Int))

/-- One row of the persisted package_to_pounds.csv cache: the dataframe
columns commodity, variety, package, pounds (line 348 of the source).
A missing weight (NaN in pandas) is `none`. -/
structure Row where
  commodity : String
  variety : String
  package : String
  pounds : Option Int
deriving DecidableEq

/-- One row of the MARS_to_TONW.csv reference table (columns
"MARS commodity", "MARS variety", "tonw commodity"). -/
structure MarsRow where
  marsCommodity : String
  marsVariety : String
  tonwCommodity : Option String
deriving DecidableEq

/-- One row of the "table of net weights corrected names.xlsx" spreadsheet
(columns "Commodity", "Pack Description", "Package Weight"; the weight is
read through `int(...)`, so it is modelled as an integer). -/
structure TonwRow where
  commodity : String
  packDescription : String
  packageWeight : Int
deriving DecidableEq

/-- The files read by get_package_weight_map: the two reference tables and
the persisted package_to_pounds cache. -/
structure Env where
  marsToTonw : List MarsRow
  tonw : List TonwRow
  cache : List Row

/-- The diagnostics printed by get_package_weight_map. -/
inductive Diag where
  /-- Line 309: request to populate MARS_to_TONW.csv for the commodity. -/
  | populateRef (commodity : String)
  /-- Line 319: the stray print on the cache-hit early return. -/
  | cacheHit
  /-- Line 351: warning that some variety or package type is missing. -/
  | missingRows
deriving DecidableEq

/-- The observable outcome of a successful call: the returned dataframe
(`none` models the Python `return(None)`), the contents of the
package_to_pounds cache after the call, whether the cache file was written
(`to_csv` on line 355), and the diagnostics printed. -/
structure CallResult where
  retval : Option (List Row)
  cache : List Row
  wrote : Bool
  prints : List Diag
deriving DecidableEq

/-- Line 306: `MARS_to_TONW[MARS_to_TONW['MARS commodity'] == commodity]`. -/
def marsFilter (mars : List MarsRow) (c : String) : List MarsRow :=
  mars.filter (fun r => decide (r.marsCommodity = c))

/-- Line 314: the cache filtered by commodity and by variety membership
(`package_to_pounds['variety'].isin(variety_list)`); note that it is not
filtered by package. -/
def tempFilter (cache : List Row) (c : String) (vl : List String) : List Row :=
  cache.filter (fun r => decide (r.commodity = c) && decide (r.variety ∈ vl))

/-- Lines 315-318: the guard of the cache-hit early return, as the
conjunction of the four nested conditions: `temp_df` nonempty, every
requested variety occurs in it, every requested package occurs in it, and
no pounds value in it is NaN. -/
def earlyCond (cache : List Row) (c : String) (vl pt : List String) : Bool :=
  let t := tempFilter cache c vl
  (!t.isEmpty)
    && vl.all (fun v => decide (v ∈ t.map (fun r => r.variety)))
    && pt.all (fun p => decide (p ∈ t.map (fun r => r.package)))
    && t.all (fun r => r.pounds.isSome)

/-- Lines 335-341: the reference-table fallback.  The variety row is looked
up in the commodity-filtered MARS_to_TONW dataframe; if present and its
tonw commodity is set, the net-weight spreadsheet is filtered by that
commodity and the exact package description, and the first match (iloc[0])
gives the weight. -/
def tonwFallback (mdf : List MarsRow) (tonw : List TonwRow)
    (variety pkg : String) : Option Int :=
  match mdf.filter (fun r => decide (r.marsVariety = variety)) with
  | [] => none
  | row :: _ =>
    match row.tonwCommodity with
    | none => none
    | some tc =>
      match tonw.filter
          (fun r => decide (r.commodity = tc) && decide (r.packDescription = pkg)) with
      | [] => none
      | t :: _ => some t.packageWeight

/-- Lines 328-341: resolution of one (variety, package) pair.
The "lb" branch parses the token before the first "lb" token as an integer.
The "kg" branch is translated exactly as written on line 333:
`int(words_list[words_list.index("kg")-1]*2.2)` multiplies the *string*
token by the float 2.2, which raises TypeError in Python for every input
that reaches it, before `int` is ever applied. -/
def resolvePair (mdf : List MarsRow) (tonw : List TonwRow)
    (variety pkg : String) : Except PyError (Option Int) :=
  let wl := pyTokens pkg
  if containsSub "lb" pkg then
    match pyIndex wl "lb" with
    | none => .error .valueError
    | some i =>
      match pyGet wl ((i : Int) - 1) with
      | none => .error .indexError
      | some tok =>
        match pyInt? tok with
        | none => .error .valueError
        | some n => .ok (some n)
  else if containsSub "kg" pkg then
    match pyIndex wl "kg" with
    | none => .error .valueError
    | some i =>
      match pyGet wl ((i : Int) - 1) with
      | none => .error .indexError
      | some _ => .error .typeError
  else
    .ok (tonwFallback mdf tonw variety pkg)

/-- Lines 343-346: the row appended for one (variety, package) pair. -/
def resolveRow (mdf : List MarsRow) (tonw : List TonwRow)
    (c v p : String) : Except PyError Row :=
  match resolvePair mdf tonw v p with
  | .error e => .error e
  | .ok w => .ok ⟨c, v, p, w⟩

/-- The inner loop `for package in package_types` of lines 327-346,
for one fixed variety. -/
def buildForVariety (mdf : List MarsRow) (tonw : List TonwRow)
    (c v : String) : List String → Except PyError (List Row)
  | [] => .ok []
  | p :: ps =>
    match resolveRow mdf tonw c v p with
    | .error e => .error e
    | .ok r =>
      match buildForVariety mdf tonw c v ps with
      | .error e => .error e
      | .ok rs => .ok (r :: rs)

/-- The outer loop `for variety in variety_list` of lines 326-346: the
`pound_mapper` dataframe of line 348, with the first raised exception
propagated. -/
def buildMapper (mdf : List MarsRow) (tonw : List TonwRow)
    (c : String) : List String → List String → Except PyError (List Row)
  | [], _ => .ok []
  | v :: vs, pt =>
    match buildForVariety mdf tonw c v pt with
    | .error e => .error e
    | .ok rs =>
      match buildMapper mdf tonw c vs pt with
      | .error e => .error e
      | .ok rest => .ok (rs ++ rest)

/-- Models pandas `drop_duplicates` (line 354): keeps the first occurrence
of each row, comparing rows by exact equality (pandas treats NaN as equal
to NaN for this purpose, matching equality of `Option`). -/
def dropDupAux {α : Type} [DecidableEq α] (seen : List α) : List α → List α
  | [] => []
  | r :: rs =>
    if r ∈ seen then dropDupAux seen rs
    else r :: dropDupAux (r :: seen) rs

/-- Models `package_to_pounds_new.drop_duplicates()` of line 354. -/
def pyDropDuplicates {α : Type} [DecidableEq α] (l : List α) : List α :=
  dropDupAux [] l

/-- Lines 349-352: the warning print, emitted when some requested package
or variety is missing from `pound_mapper` and debug prints are on. -/
def missingDiag (vl pt : List String) (m : List Row) (dbg : Bool) : List Diag :=
  if (!(pt.all (fun p => decide (p ∈ m.map (fun r => r.package)))
        && vl.all (fun v => decide (v ∈ m.map (fun r => r.variety))))) && dbg
  then [Diag.missingRows] else []

/-- The whole of get_package_weight_map (lines 302-356 of
usda_mmn_utils.py), as a function of the files it reads.

Control flow, in source order: line 307 returns None (with the line 309
print when debug_prints is set) when the commodity has no MARS_to_TONW
row; lines 315-320 return the commodity/variety-filtered cache when the
early-return guard holds (printing "I shouldn..." of line 319, modelled by
`Diag.cacheHit`); otherwise lines 322-356 recompute every requested pair,
concatenate the result onto the cache, drop exact duplicate rows, write
the file back and return the freshly built mapper. -/
def get_package_weight_map (env : Env) (c : String)
    (vl pt : List String) (dbg : Bool) : Except PyError CallResult :=
  if (marsFilter env.marsToTonw c).isEmpty then
    .ok ⟨none, env.cache, false, if dbg then [Diag.populateRef c] else []⟩
  else if earlyCond env.cache c vl pt then
    .ok ⟨some (tempFilter env.cache c vl), env.cache, false, [Diag.cacheHit]⟩
  else
    match buildMapper (marsFilter env.marsToTonw c) env.tonw c vl pt with
    | .error e => .error e
    | .ok m =>
      .ok ⟨some m, pyDropDuplicates (env.cache ++ m), true, missingDiag vl pt m dbg⟩

/-! Helper lemmas about the deduplication model. -/

theorem dropDupAux_nil {α : Type} [DecidableEq α] (seen : List α) :
    dropDupAux seen ([] : List α) = [] := rfl

theorem dropDupAux_cons {α : Type} [DecidableEq α] (seen : List α) (r : α) (rs : List α) :
    dropDupAux seen (r :: rs)
      = if r ∈ seen then dropDupAux seen rs else r :: dropDupAux (r :: seen) rs := rfl

theorem dropDupAux_all_seen {α : Type} [DecidableEq α] :
    ∀ (l seen : List α), (∀ x ∈ l, x ∈ seen) → dropDupAux seen l = [] := by
  intro l
  induction l with
  | nil => intro seen _; rfl
  | cons r rs ih =>
    intro seen h
    rw [dropDupAux_cons, if_pos (h r (List.mem_cons_self r rs))]
    exact ih seen (fun x hx => h x (List.mem_cons_of_mem r hx))

theorem dropDupAux_append_of_subset {α : Type} [DecidableEq α] :
    ∀ (l1 l2 seen : List α), (∀ x ∈ l2, x ∈ seen ∨ x ∈ l1) →
      dropDupAux seen (l1 ++ l2) = dropDupAux seen l1 := by
  intro l1
  induction l1 with
  | nil =>
    intro l2 seen h
    rw [List.nil_append, dropDupAux_nil]
    exact dropDupAux_all_seen l2 seen (fun x hx => (h x hx).resolve_right (by intro hh; cases hh))
  | cons a l1 ih =>
    intro l2 seen h
    rw [List.cons_append, dropDupAux_cons, dropDupAux_cons]
    by_cases ha : a ∈ seen
    · rw [if_pos ha, if_pos ha]
      refine ih l2 seen (fun x hx => ?_)
      rcases h x hx with hx1 | hx1
      · exact Or.inl hx1
      · rcases List.mem_cons.mp hx1 with hx2 | hx2
        · exact Or.inl (hx2 ▸ ha)
        · exact Or.inr hx2
    · rw [if_neg ha, if_neg ha]
      congr 1
      refine ih l2 (a :: seen) (fun x hx => ?_)
      rcases h x hx with hx1 | hx1
      · exact Or.inl (List.mem_cons_of_mem a hx1)
      · rcases List.mem_cons.mp hx1 with hx2 | hx2
        · exact Or.inl (hx2 ▸ List.mem_cons_self a seen)
        · exact Or.inr hx2

theorem pyDropDuplicates_append_of_subset {α : Type} [DecidableEq α]
    (l1 l2 : List α) (h : ∀ x ∈ l2, x ∈ l1) :
    pyDropDuplicates (l1 ++ l2) = pyDropDuplicates l1 :=
  dropDupAux_append_of_subset l1 l2 [] (fun x hx => Or.inr (h x hx))

theorem mem_dropDupAux {α : Type} [DecidableEq α] :
    ∀ (l seen : List α) (x : α), x ∈ l → x ∉ seen → x ∈ dropDupAux seen l := by
  intro l
  induction l with
  | nil => intro seen x hx _; cases hx
  | cons r rs ih =>
    intro seen x hx hs
    rw [dropDupAux_cons]
    by_cases hr : r ∈ seen
    · rw [if_pos hr]
      have hxr : x ≠ r := fun hh => hs (hh ▸ hr)
      exact ih seen x ((List.mem_cons.mp hx).resolve_left hxr) hs
    · rw [if_neg hr]
      rcases List.mem_cons.mp hx with hx1 | hx1
      · exact hx1 ▸ List.mem_cons_self r _
      · by_cases hxr : x = r
        · exact hxr ▸ List.mem_cons_self r _
        · refine List.mem_cons_of_mem r (ih (r :: seen) x hx1 ?_)
          intro hh
          rcases List.mem_cons.mp hh with hh1 | hh1
          · exact hxr hh1
          · exact hs hh1

theorem mem_pyDropDuplicates {α : Type} [DecidableEq α] (l : List α) (x : α)
    (hx : x ∈ l) : x ∈ pyDropDuplicates l :=
  mem_dropDupAux l [] x hx (by intro hh; cases hh)

theorem not_mem_seen_of_mem_dropDupAux {α : Type} [DecidableEq α] :
    ∀ (l seen : List α) (x : α), x ∈ dropDupAux seen l → x ∉ seen := by
  intro l
  induction l with
  | nil => intro seen x hx; cases hx
  | cons r rs ih =>
    intro seen x hx
    rw [dropDupAux_cons] at hx
    by_cases hr : r ∈ seen
    · rw [if_pos hr] at hx
      exact ih seen x hx
    · rw [if_neg hr] at hx
      rcases List.mem_cons.mp hx with hx1 | hx1
      · exact hx1 ▸ hr
      · intro hh
        exact ih (r :: seen) x hx1 (List.mem_cons_of_mem r hh)

theorem nodup_dropDupAux {α : Type} [DecidableEq α] :
    ∀ (l seen : List α), (dropDupAux seen l).Nodup := by
  intro l
  induction l with
  | nil => intro seen; exact List.nodup_nil
  | cons r rs ih =>
    intro seen
    rw [dropDupAux_cons]
    by_cases hr : r ∈ seen
    · rw [if_pos hr]; exact ih seen
    · rw [if_neg hr]
      refine List.nodup_cons.mpr ⟨?_, ih (r :: seen)⟩
      intro hh
      exact not_mem_seen_of_mem_dropDupAux rs (r :: seen) r hh (List.mem_cons_self r seen)

theorem nodup_pyDropDuplicates {α : Type} [DecidableEq α] (l : List α) :
    (pyDropDuplicates l).Nodup :=
  nodup_dropDupAux l []

theorem dropDupAux_eq_self {α : Type} [DecidableEq α] :
    ∀ (l seen : List α), l.Nodup → (∀ x ∈ l, x ∉ seen) → dropDupAux seen l = l := by
  intro l
  induction l with
  | nil => intro seen _ _; rfl
  | cons r rs ih =>
    intro seen hnd hs
    rw [dropDupAux_cons, if_neg (hs r (List.mem_cons_self r rs))]
    congr 1
    refine ih (r :: seen) (List.nodup_cons.mp hnd).2 (fun x hx hh => ?_)
    rcases List.mem_cons.mp hh with hh1 | hh1
    · exact (List.nodup_cons.mp hnd).1 (hh1 ▸ hx)
    · exact hs x (List.mem_cons_of_mem r hx) hh1

theorem pyDropDuplicates_eq_self {α : Type} [DecidableEq α] (l : List α)
    (h : l.Nodup) : pyDropDuplicates l = l :=
  dropDupAux_eq_self l [] h (fun x _ hh => by cases hh)

theorem dropDupAux_congr {α : Type} [DecidableEq α] :
    ∀ (l s1 s2 : List α), (∀ y ∈ l, (y ∈ s1 ↔ y ∈ s2)) →
      dropDupAux s1 l = dropDupAux s2 l := by
  intro l
  induction l with
  | nil => intro s1 s2 _; rfl
  | cons r rs ih =>
    intro s1 s2 h
    rw [dropDupAux_cons, dropDupAux_cons]
    by_cases hr : r ∈ s1
    · rw [if_pos hr, if_pos ((h r (List.mem_cons_self r rs)).mp hr)]
      exact ih s1 s2 (fun y hy => h y (List.mem_cons_of_mem r hy))
    · rw [if_neg hr, if_neg (fun hh => hr ((h r (List.mem_cons_self r rs)).mpr hh))]
      congr 1
      refine ih (r :: s1) (r :: s2) (fun y hy => ?_)
      rw [List.mem_cons, List.mem_cons]
      exact or_congr Iff.rfl (h y (List.mem_cons_of_mem r hy))

theorem filter_dropDupAux {α : Type} [DecidableEq α] (p : α → Bool) :
    ∀ (l seen : List α), (dropDupAux seen l).filter p = dropDupAux seen (l.filter p) := by
  intro l
  induction l with
  | nil => intro seen; rfl
  | cons r rs ih =>
    intro seen
    rw [dropDupAux_cons, List.filter_cons]
    by_cases hr : r ∈ seen
    · rw [if_pos hr]
      by_cases hp : p r
      · rw [if_pos hp, dropDupAux_cons, if_pos hr]
        exact ih seen
      · rw [if_neg hp]
        exact ih seen
    · rw [if_neg hr]
      by_cases hp : p r
      · rw [if_pos hp, dropDupAux_cons, if_neg hr, List.filter_cons, if_pos hp]
        congr 1
        exact ih (r :: seen)
      · rw [if_neg hp, List.filter_cons, if_neg hp]
        rw [ih (r :: seen)]
        -- r fails p while everything in rs.filter p satisfies it, so the
        -- extra seen entry r is inert
        refine dropDupAux_congr (rs.filter p) (r :: seen) seen (fun y hy => ?_)
        have hyp : p y = true := (List.mem_filter.mp hy).2
        have hyr : y ≠ r := fun hh => hp (by rw [← hh]; exact hyp)
        rw [List.mem_cons]
        exact ⟨fun hh => hh.resolve_left hyr, Or.inr⟩

theorem filter_pyDropDuplicates {α : Type} [DecidableEq α] (p : α → Bool) (l : List α) :
    (pyDropDuplicates l).filter p = pyDropDuplicates (l.filter p) :=
  filter_dropDupAux p l []

/-! Helper lemmas about the per-pair resolution and the mapper loops. -/

theorem pyGet_pos (l : List String) (i : Nat) (hi : 1 ≤ i) :
    pyGet l ((i : Int) - 1) = l[i - 1]? := by
  unfold pyGet
  rw [if_pos (by omega : (0 : Int) ≤ (i : Int) - 1)]
  have h : ((i : Int) - 1).toNat = i - 1 := by omega
  rw [h]

theorem resolvePair_lb (mdf : List MarsRow) (tonw : List TonwRow)
    (v pkg : String) (i : Nat) (tok : String) (n : Int)
    (hsub : containsSub "lb" pkg = true)
    (hidx : pyIndex (pyTokens pkg) "lb" = some i)
    (hi : 1 ≤ i)
    (htok : (pyTokens pkg)[i - 1]? = some tok)
    (hn : pyInt? tok = some n) :
    resolvePair mdf tonw v pkg = .ok (some n) := by
  simp only [resolvePair, hsub, if_true, hidx, pyGet_pos (pyTokens pkg) i hi, htok, hn]

theorem resolvePair_lb_bad (mdf : List MarsRow) (tonw : List TonwRow)
    (v pkg : String) (i : Nat) (tok : String)
    (hsub : containsSub "lb" pkg = true)
    (hidx : pyIndex (pyTokens pkg) "lb" = some i)
    (hi : 1 ≤ i)
    (htok : (pyTokens pkg)[i - 1]? = some tok)
    (hn : pyInt? tok = none) :
    resolvePair mdf tonw v pkg = .error .valueError := by
  simp only [resolvePair, hsub, if_true, hidx, pyGet_pos (pyTokens pkg) i hi, htok, hn]

theorem resolvePair_kg (mdf : List MarsRow) (tonw : List TonwRow)
    (v pkg : String) (i : Nat) (tok : String)
    (hnlb : containsSub "lb" pkg = false)
    (hsub : containsSub "kg" pkg = true)
    (hidx : pyIndex (pyTokens pkg) "kg" = some i)
    (hi : 1 ≤ i)
    (htok : (pyTokens pkg)[i - 1]? = some tok) :
    resolvePair mdf tonw v pkg = .error .typeError := by
  simp only [resolvePair, hnlb, Bool.false_eq_true, if_false, hsub, if_true, hidx,
    pyGet_pos (pyTokens pkg) i hi, htok]

theorem resolvePair_no_unit (mdf : List MarsRow) (tonw : List TonwRow)
    (v pkg : String)
    (hnlb : containsSub "lb" pkg = false)
    (hnkg : containsSub "kg" pkg = false) :
    resolvePair mdf tonw v pkg = .ok (tonwFallback mdf tonw v pkg) := by
  simp only [resolvePair, hnlb, Bool.false_eq_true, if_false, hnkg]

theorem resolveRow_ok (mdf : List MarsRow) (tonw : List TonwRow)
    (c v p : String) (r : Row) (h : resolveRow mdf tonw c v p = .ok r) :
    r.commodity = c ∧ r.variety = v ∧ r.package = p := by
  unfold resolveRow at h
  cases h1 : resolvePair mdf tonw v p with
  | error e => rw [h1] at h; exact Except.noConfusion h
  | ok w =>
    rw [h1] at h
    cases h
    exact ⟨rfl, rfl, rfl⟩

theorem buildForVariety_ok (mdf : List MarsRow) (tonw : List TonwRow)
    (c v : String) :
    ∀ (pt : List String) (rs : List Row),
      buildForVariety mdf tonw c v pt = .ok rs →
      rs.map (fun r => r.package) = pt ∧ ∀ r ∈ rs, r.commodity = c ∧ r.variety = v := by
  intro pt
  induction pt with
  | nil =>
    intro rs h
    cases h
    exact ⟨rfl, by intro r hr; cases hr⟩
  | cons p ps ih =>
    intro rs h
    unfold buildForVariety at h
    cases h1 : resolveRow mdf tonw c v p with
    | error e => rw [h1] at h; exact Except.noConfusion h
    | ok r0 =>
      rw [h1] at h
      cases h2 : buildForVariety mdf tonw c v ps with
      | error e => rw [h2] at h; exact Except.noConfusion h
      | ok rs0 =>
        rw [h2] at h
        cases h
        obtain ⟨hra, hrb, hrc⟩ := resolveRow_ok mdf tonw c v p r0 h1
        obtain ⟨ha, hb⟩ := ih rs0 h2
        refine ⟨by rw [List.map_cons, hrc, ha], ?_⟩
        intro r hr
        rcases List.mem_cons.mp hr with hr1 | hr1
        · exact hr1 ▸ ⟨hra, hrb⟩
        · exact hb r hr1

theorem buildMapper_ok (mdf : List MarsRow) (tonw : List TonwRow) (c : String) :
    ∀ (vl pt : List String) (m : List Row),
      buildMapper mdf tonw c vl pt = .ok m →
      (∀ r ∈ m, r.commodity = c ∧ r.variety ∈ vl ∧ r.package ∈ pt)
      ∧ (vl.Nodup → pt.Nodup → m.Nodup) := by
  intro vl
  induction vl with
  | nil =>
    intro pt m h
    cases h
    exact ⟨(by intro r hr; cases hr), fun _ _ => List.nodup_nil⟩
  | cons v vs ih =>
    intro pt m h
    unfold buildMapper at h
    cases h1 : buildForVariety mdf tonw c v pt with
    | error e => rw [h1] at h; exact Except.noConfusion h
    | ok rs =>
      rw [h1] at h
      cases h2 : buildMapper mdf tonw c vs pt with
      | error e => rw [h2] at h; exact Except.noConfusion h
      | ok rest =>
        rw [h2] at h
        cases h
        obtain ⟨hmap, hall⟩ := buildForVariety_ok mdf tonw c v pt rs h1
        obtain ⟨ihmem, ihnd⟩ := ih pt rest h2
        refine ⟨?_, ?_⟩
        · intro r hr
          rcases List.mem_append.mp hr with hr1 | hr1
          · obtain ⟨hc1, hv1⟩ := hall r hr1
            refine ⟨hc1, hv1 ▸ List.mem_cons_self v vs, ?_⟩
            rw [← hmap]
            exact List.mem_map_of_mem _ hr1
          · obtain ⟨hc1, hv1, hp1⟩ := ihmem r hr1
            exact ⟨hc1, List.mem_cons_of_mem v hv1, hp1⟩
        · intro hvnd hptnd
          rw [List.nodup_append]
          refine ⟨?_, ihnd (List.nodup_cons.mp hvnd).2 hptnd, ?_⟩
          · have hmnd : (rs.map (fun r => r.package)).Nodup := by rw [hmap]; exact hptnd
            exact List.Nodup.of_map _ hmnd
          · rw [List.disjoint_left]
            intro a ha ha2
            obtain ⟨_, hv1⟩ := hall a ha
            obtain ⟨_, hv2, _⟩ := ihmem a ha2
            rw [hv1] at hv2
            exact (List.nodup_cons.mp hvnd).1 hv2

theorem buildMapper_singleton (mdf : List MarsRow) (tonw : List TonwRow)
    (c v p : String) :
    buildMapper mdf tonw c [v] [p]
      = match resolvePair mdf tonw v p with
        | .error e => .error e
        | .ok w => .ok [⟨c, v, p, w⟩] := by
  cases h : resolvePair mdf tonw v p <;>
    simp [buildMapper, buildForVariety, resolveRow, h]

/-! Helper lemmas giving the three control-flow outcomes of
get_package_weight_map. -/

theorem gpwm_none (mars : List MarsRow) (tonw : List TonwRow) (cache : List Row)
    (c : String) (vl pt : List String) (dbg : Bool)
    (hm : (marsFilter mars c).isEmpty = true) :
    get_package_weight_map ⟨mars, tonw, cache⟩ c vl pt dbg
      = .ok ⟨none, cache, false, if dbg then [Diag.populateRef c] else []⟩ := by
  unfold get_package_weight_map
  simp only [hm, if_true]

theorem gpwm_early (mars : List MarsRow) (tonw : List TonwRow) (cache : List Row)
    (c : String) (vl pt : List String) (dbg : Bool)
    (hm : (marsFilter mars c).isEmpty = false)
    (hcond : earlyCond cache c vl pt = true) :
    get_package_weight_map ⟨mars, tonw, cache⟩ c vl pt dbg
      = .ok ⟨some (tempFilter cache c vl), cache, false, [Diag.cacheHit]⟩ := by
  unfold get_package_weight_map
  simp only [hm, Bool.false_eq_true, if_false, hcond, if_true]

theorem gpwm_recompute (mars : List MarsRow) (tonw : List TonwRow) (cache : List Row)
    (c : String) (vl pt : List String) (dbg : Bool) (m : List Row)
    (hm : (marsFilter mars c).isEmpty = false)
    (hcond : earlyCond cache c vl pt = false)
    (hb : buildMapper (marsFilter mars c) tonw c vl pt = .ok m) :
    get_package_weight_map ⟨mars, tonw, cache⟩ c vl pt dbg
      = .ok ⟨some m, pyDropDuplicates (cache ++ m), true, missingDiag vl pt m dbg⟩ := by
  unfold get_package_weight_map
  simp only [hm, Bool.false_eq_true, if_false, hcond, hb]

theorem gpwm_propagate (mars : List MarsRow) (tonw : List TonwRow) (cache : List Row)
    (c : String) (vl pt : List String) (dbg : Bool) (e : PyError)
    (hm : (marsFilter mars c).isEmpty = false)
    (hcond : earlyCond cache c vl pt = false)
    (hb : buildMapper (marsFilter mars c) tonw c vl pt = .error e) :
    get_package_weight_map ⟨mars, tonw, cache⟩ c vl pt dbg = .error e := by
  unfold get_package_weight_map
  simp only [hm, Bool.false_eq_true, if_false, hcond, hb]

/-! Concrete environments used by the witnesses and counterexamples. -/

/-- A minimal environment: one MARS_to_TONW row for Tomatoes/Roma, an empty
net-weight table and an empty package_to_pounds cache. -/
def envSimple : Env := ⟨[⟨"Tomatoes", "Roma", some "TOMATOES"⟩], [], []⟩

/-- envSimple with a cached null entry for (Tomatoes, Roma, small bag). -/
def envNullCache : Env :=
  ⟨[⟨"Tomatoes", "Roma", some "TOMATOES"⟩], [],
   [⟨"Tomatoes", "Roma", "small bag", none⟩]⟩

/-- envNullCache after the net-weight table gains a row matching the cached
null tuple. -/
def envNewTonw : Env :=
  ⟨[⟨"Tomatoes", "Roma", some "TOMATOES"⟩],
   [⟨"TOMATOES", "small bag", 30⟩],
   [⟨"Tomatoes", "Roma", "small bag", none⟩]⟩

/-- envSimple with one cached non-null entry for a package that later calls
do not request. -/
def envSack : Env :=
  ⟨[⟨"Tomatoes", "Roma", some "TOMATOES"⟩], [],
   [⟨"Tomatoes", "Roma", "5 lb sack", some 5⟩]⟩

/-- envSimple with two cached non-null entries for the Roma variety. -/
def envTwoRows : Env :=
  ⟨[⟨"Tomatoes", "Roma", some "TOMATOES"⟩], [],
   [⟨"Tomatoes", "Roma", "5 lb sack", some 5⟩,
    ⟨"Tomatoes", "Roma", "25 lb carton", some 25⟩]⟩

/-- An environment whose MARS_to_TONW table is empty. -/
def envEmpty : Env := ⟨[], [], []⟩

/-! Claims. -/

/-- C1.  The claim states that a descriptor containing a token "kg" preceded
by the decimal representation of a positive N resolves to floor(N * 2.2)
pounds without raising ("10 kg box" to 22).  The code instead raises
TypeError on every descriptor that reaches the kg branch, because line 333
multiplies the string token itself by the float 2.2 before int() is ever
applied.  This theorem evaluates the translated function at the claim's own
example input. -/
theorem C1_kg_path_raises :
    get_package_weight_map envSimple "Tomatoes" ["Roma"] ["10 kg box"] false
      = .error .typeError := by decide

/-- C2 counterexample.  The tuple (Tomatoes, Roma, small bag) has a cached
entry with null pounds.  A subsequent call after the net-weight table gains
a matching row returns 30 pounds, not the stored null: a cached null entry
does not short-circuit recomputation, so changing the reference tables does
change the resolved value. -/
theorem C2_counterexample :
    envNullCache.cache = envNewTonw.cache
    ∧ get_package_weight_map envNullCache "Tomatoes" ["Roma"] ["small bag"] false
        = .ok ⟨some [⟨"Tomatoes", "Roma", "small bag", none⟩],
               [⟨"Tomatoes", "Roma", "small bag", none⟩], true, []⟩
    ∧ get_package_weight_map envNewTonw "Tomatoes" ["Roma"] ["small bag"] false
        = .ok ⟨some [⟨"Tomatoes", "Roma", "small bag", some 30⟩],
               [⟨"Tomatoes", "Roma", "small bag", none⟩,
                ⟨"Tomatoes", "Roma", "small bag", some 30⟩], true, []⟩
    ∧ (some 30 : Option Int) ≠ none :=
  ⟨rfl, by decide, by decide, by decide⟩

/-- C2 amended.  The persisted cache takes priority only when the whole
early-return guard holds: the commodity still has a MARS_to_TONW row, the
filtered cache is nonempty, it covers every requested variety and package,
and every pounds value in it is non-null.  In that case the result is the
stored data, unchanged by any modification of the net-weight table or of
the commodity's MARS_to_TONW rows (beyond their existence). -/
theorem C2_cache_amended (mars1 mars2 : List MarsRow) (tonw1 tonw2 : List TonwRow)
    (cache : List Row) (c : String) (vl pt : List String) (dbg : Bool)
    (hm1 : (marsFilter mars1 c).isEmpty = false)
    (hm2 : (marsFilter mars2 c).isEmpty = false)
    (hcond : earlyCond cache c vl pt = true) :
    get_package_weight_map ⟨mars1, tonw1, cache⟩ c vl pt dbg
      = get_package_weight_map ⟨mars2, tonw2, cache⟩ c vl pt dbg
    ∧ get_package_weight_map ⟨mars1, tonw1, cache⟩ c vl pt dbg
      = .ok ⟨some (tempFilter cache c vl), cache, false, [Diag.cacheHit]⟩ := by
  have h1 := gpwm_early mars1 tonw1 cache c vl pt dbg hm1 hcond
  have h2 := gpwm_early mars2 tonw2 cache c vl pt dbg hm2 hcond
  exact ⟨h1.trans h2.symm, h1⟩

/-- Witness for C2_cache_amended: with every requested pound cached
non-null, replacing the empty net-weight table by one that maps the cached
package to 99 pounds does not change the call's outcome. -/
theorem C2_cache_amended_witness :
    get_package_weight_map
        ⟨[⟨"Tomatoes", "Roma", some "TOMATOES"⟩], [],
         [⟨"Tomatoes", "Roma", "5 lb sack", some 5⟩]⟩
        "Tomatoes" ["Roma"] ["5 lb sack"] false
      = get_package_weight_map
          ⟨[⟨"Tomatoes", "Roma", some "TOMATOES"⟩], [⟨"TOMATOES", "5 lb sack", 99⟩],
           [⟨"Tomatoes", "Roma", "5 lb sack", some 5⟩]⟩
          "Tomatoes" ["Roma"] ["5 lb sack"] false
    ∧ get_package_weight_map
        ⟨[⟨"Tomatoes", "Roma", some "TOMATOES"⟩], [],
         [⟨"Tomatoes", "Roma", "5 lb sack", some 5⟩]⟩
        "Tomatoes" ["Roma"] ["5 lb sack"] false
      = .ok ⟨some (tempFilter [⟨"Tomatoes", "Roma", "5 lb sack", some 5⟩]
                     "Tomatoes" ["Roma"]),
             [⟨"Tomatoes", "Roma", "5 lb sack", some 5⟩], false, [Diag.cacheHit]⟩ :=
  C2_cache_amended [⟨"Tomatoes", "Roma", some "TOMATOES"⟩]
    [⟨"Tomatoes", "Roma", some "TOMATOES"⟩] [] [⟨"TOMATOES", "5 lb sack", 99⟩]
    [⟨"Tomatoes", "Roma", "5 lb sack", some 5⟩] "Tomatoes" ["Roma"] ["5 lb sack"] false
    (by decide) (by decide) (by decide)

/-- C3.  A package descriptor containing the token "lb" preceded by the
decimal representation of a positive integer N resolves to exactly N
pounds: true of the per-pair resolution, and of a full call requesting
that pair when the commodity is known and the cache does not short-circuit
the computation. -/
theorem C3_lb_parse (env : Env) (c v pkg : String) (i : Nat) (tok : String) (N : Int)
    (_hpos : 0 < N)
    (hsub : containsSub "lb" pkg = true)
    (hidx : pyIndex (pyTokens pkg) "lb" = some i)
    (hi : 1 ≤ i)
    (htok : (pyTokens pkg)[i - 1]? = some tok)
    (hN : pyInt? tok = some N)
    (hm : (marsFilter env.marsToTonw c).isEmpty = false)
    (hcond : earlyCond env.cache c [v] [pkg] = false) :
    resolvePair (marsFilter env.marsToTonw c) env.tonw v pkg = .ok (some N)
    ∧ get_package_weight_map env c [v] [pkg] false
        = .ok ⟨some [⟨c, v, pkg, some N⟩],
               pyDropDuplicates (env.cache ++ [⟨c, v, pkg, some N⟩]), true, []⟩ := by
  have hres := resolvePair_lb (marsFilter env.marsToTonw c) env.tonw v pkg i tok N
    hsub hidx hi htok hN
  refine ⟨hres, ?_⟩
  have hb : buildMapper (marsFilter env.marsToTonw c) env.tonw c [v] [pkg]
      = .ok [⟨c, v, pkg, some N⟩] := by
    rw [buildMapper_singleton, hres]
  have h3 := gpwm_recompute env.marsToTonw env.tonw env.cache c [v] [pkg] false
    [⟨c, v, pkg, some N⟩] hm hcond hb
  have hmd : missingDiag [v] [pkg] [⟨c, v, pkg, some N⟩] false = [] := by
    simp [missingDiag]
  rw [hmd] at h3
  exact h3

/-- Witness for C3_lb_parse on the spec's example "25 lb carton". -/
theorem C3_lb_parse_witness :
    resolvePair (marsFilter envSimple.marsToTonw "Tomatoes") envSimple.tonw
        "Roma" "25 lb carton" = .ok (some 25)
    ∧ get_package_weight_map envSimple "Tomatoes" ["Roma"] ["25 lb carton"] false
        = .ok ⟨some [⟨"Tomatoes", "Roma", "25 lb carton", some 25⟩],
               pyDropDuplicates (envSimple.cache
                 ++ [⟨"Tomatoes", "Roma", "25 lb carton", some 25⟩]), true, []⟩ :=
  C3_lb_parse envSimple "Tomatoes" "Roma" "25 lb carton" 1 "25" 25
    (by decide) (by decide) (by decide) (by decide) (by decide) (by decide)
    (by decide) (by decide)

/-- C4 counterexample.  With a pre-existing cached row for another package
of the requested variety, the first call recomputes and returns one row,
while the identical second call hits the cache and returns two rows
(including the never-requested package): the outputs are not identical. -/
theorem C4_counterexample :
    get_package_weight_map envSack "Tomatoes" ["Roma"] ["25 lb carton"] false
      = .ok ⟨some [⟨"Tomatoes", "Roma", "25 lb carton", some 25⟩],
             [⟨"Tomatoes", "Roma", "5 lb sack", some 5⟩,
              ⟨"Tomatoes", "Roma", "25 lb carton", some 25⟩], true, []⟩
    ∧ get_package_weight_map
        ⟨envSack.marsToTonw, envSack.tonw,
         [⟨"Tomatoes", "Roma", "5 lb sack", some 5⟩,
          ⟨"Tomatoes", "Roma", "25 lb carton", some 25⟩]⟩
        "Tomatoes" ["Roma"] ["25 lb carton"] false
      = .ok ⟨some [⟨"Tomatoes", "Roma", "5 lb sack", some 5⟩,
                   ⟨"Tomatoes", "Roma", "25 lb carton", some 25⟩],
             [⟨"Tomatoes", "Roma", "5 lb sack", some 5⟩,
              ⟨"Tomatoes", "Roma", "25 lb carton", some 25⟩], false, [Diag.cacheHit]⟩
    ∧ (some [⟨"Tomatoes", "Roma", "25 lb carton", some 25⟩] : Option (List Row))
        ≠ some [⟨"Tomatoes", "Roma", "5 lb sack", some 5⟩,
                ⟨"Tomatoes", "Roma", "25 lb carton", some 25⟩] :=
  ⟨by decide, by decide, by decide⟩

/-- C4 amended.  If the cache holds no row for the requested commodity with
a requested variety before the first call, then a second identical call
returns the same mapping and leaves the cache exactly as the first call
left it; moreover the persisted cache holds no duplicate rows.  (Without
that proviso the second call may return extra previously cached rows, as
C4_counterexample shows.) -/
theorem C4_idempotent_amended (env : Env) (c : String) (vl pt : List String)
    (m cache1 : List Row) (w : Bool) (pr : List Diag)
    (hvl : vl.Nodup) (hpt : pt.Nodup)
    (hm : (marsFilter env.marsToTonw c).isEmpty = false)
    (hc : tempFilter env.cache c vl = [])
    (h1 : get_package_weight_map env c vl pt false = .ok ⟨some m, cache1, w, pr⟩) :
    (∃ w2 pr2, get_package_weight_map ⟨env.marsToTonw, env.tonw, cache1⟩ c vl pt false
        = .ok ⟨some m, cache1, w2, pr2⟩)
    ∧ cache1.Nodup := by
  have hcond : earlyCond env.cache c vl pt = false := by
    simp [earlyCond, hc]
  have h1e : get_package_weight_map ⟨env.marsToTonw, env.tonw, env.cache⟩ c vl pt false
      = .ok ⟨some m, cache1, w, pr⟩ := h1
  cases hb : buildMapper (marsFilter env.marsToTonw c) env.tonw c vl pt with
  | error e =>
    rw [gpwm_propagate env.marsToTonw env.tonw env.cache c vl pt false e hm hcond hb] at h1e
    exact Except.noConfusion h1e
  | ok m0 =>
    rw [gpwm_recompute env.marsToTonw env.tonw env.cache c vl pt false m0 hm hcond hb] at h1e
    simp only [Except.ok.injEq, CallResult.mk.injEq, Option.some.injEq] at h1e
    obtain ⟨hm0, hcache1, -, -⟩ := h1e
    rw [hm0] at hb
    obtain ⟨hmem, hnd⟩ := buildMapper_ok (marsFilter env.marsToTonw c) env.tonw c vl pt m hb
    have hmnd : m.Nodup := hnd hvl hpt
    rw [hm0] at hcache1
    have hndc : cache1.Nodup := by
      rw [← hcache1]
      exact nodup_pyDropDuplicates _
    have hfilter : m.filter
        (fun r => decide (r.commodity = c) && decide (r.variety ∈ vl)) = m := by
      refine List.filter_eq_self.mpr (fun r hr => ?_)
      obtain ⟨h9, h10, -⟩ := hmem r hr
      simp [h9, h10]
    have htemp2 : tempFilter cache1 c vl = m := by
      rw [← hcache1]
      unfold tempFilter
      rw [filter_pyDropDuplicates, List.filter_append]
      have hc9 : env.cache.filter
          (fun r => decide (r.commodity = c) && decide (r.variety ∈ vl)) = [] := hc
      rw [hc9, List.nil_append, hfilter]
      exact pyDropDuplicates_eq_self m hmnd
    by_cases e2 : earlyCond cache1 c vl pt = true
    · refine ⟨⟨false, [Diag.cacheHit], ?_⟩, hndc⟩
      have h3 := gpwm_early env.marsToTonw env.tonw cache1 c vl pt false hm e2
      rw [htemp2] at h3
      exact h3
    · have e2f : earlyCond cache1 c vl pt = false := by
        cases h5 : earlyCond cache1 c vl pt
        · rfl
        · exact absurd h5 e2
      have hded : pyDropDuplicates (cache1 ++ m) = cache1 := by
        have hsubm : ∀ x ∈ m, x ∈ cache1 := by
          intro x hx
          rw [← hcache1]
          exact mem_pyDropDuplicates _ _ (List.mem_append_right _ hx)
        rw [pyDropDuplicates_append_of_subset cache1 m hsubm]
        exact pyDropDuplicates_eq_self cache1 hndc
      refine ⟨⟨true, missingDiag vl pt m false, ?_⟩, hndc⟩
      have h3 := gpwm_recompute env.marsToTonw env.tonw cache1 c vl pt false m hm e2f hb
      rw [hded] at h3
      exact h3

/-- Witness for C4_idempotent_amended: starting from an empty cache, the
second identical call reproduces the first call's output and cache. -/
theorem C4_idempotent_amended_witness :
    (∃ w2 pr2, get_package_weight_map
        ⟨envSimple.marsToTonw, envSimple.tonw,
         [⟨"Tomatoes", "Roma", "25 lb carton", some 25⟩]⟩
        "Tomatoes" ["Roma"] ["25 lb carton"] false
        = .ok ⟨some [⟨"Tomatoes", "Roma", "25 lb carton", some 25⟩],
               [⟨"Tomatoes", "Roma", "25 lb carton", some 25⟩], w2, pr2⟩)
    ∧ ([⟨"Tomatoes", "Roma", "25 lb carton", some 25⟩] : List Row).Nodup :=
  C4_idempotent_amended envSimple "Tomatoes" ["Roma"] ["25 lb carton"]
    [⟨"Tomatoes", "Roma", "25 lb carton", some 25⟩]
    [⟨"Tomatoes", "Roma", "25 lb carton", some 25⟩] true []
    (by decide) (by decide) (by decide) (by decide) (by decide)

/-- C5 counterexample.  For a commodity absent from MARS_to_TONW, the call
with debug_prints at its default (False) returns None without raising but
prints nothing at all: no diagnostic message is emitted. -/
theorem C5_counterexample :
    (marsFilter envEmpty.marsToTonw "Okra").isEmpty = true
    ∧ get_package_weight_map envEmpty "Okra" ["A"] ["B"] false
        = .ok ⟨none, [], false, []⟩ :=
  ⟨by decide, by decide⟩

/-- C5 amended.  For a commodity with no MARS_to_TONW row the call returns
None without raising and without touching the cache; the diagnostic message
is emitted exactly when debug_prints is set (the claim asserted it
unconditionally, but the parameter defaults to False). -/
theorem C5_unknown_amended (env : Env) (c : String) (vl pt : List String) (dbg : Bool)
    (hm : (marsFilter env.marsToTonw c).isEmpty = true) :
    get_package_weight_map env c vl pt dbg
      = .ok ⟨none, env.cache, false, if dbg then [Diag.populateRef c] else []⟩ :=
  gpwm_none env.marsToTonw env.tonw env.cache c vl pt dbg hm

/-- Witness for C5_unknown_amended with debug prints enabled. -/
theorem C5_unknown_amended_witness :
    get_package_weight_map envEmpty "Okra" ["A"] ["B"] true
      = .ok ⟨none, [], false, [Diag.populateRef "Okra"]⟩ :=
  (C5_unknown_amended envEmpty "Okra" ["A"] ["B"] true (by decide)).trans (by decide)

/-- C6 counterexample.  A call that takes the cache-hit early return does
not merge anything and does not rewrite the mapping file (wrote = false),
contradicting "every call ... rewrites the whole mapping file". -/
theorem C6_counterexample :
    get_package_weight_map envTwoRows "Tomatoes" ["Roma"] ["25 lb carton"] false
      = .ok ⟨some envTwoRows.cache, envTwoRows.cache, false, [Diag.cacheHit]⟩
    ∧ get_package_weight_map envEmpty "Okra" ["A"] ["B"] true
      = .ok ⟨none, [], false, [Diag.populateRef "Okra"]⟩ :=
  ⟨by decide, by decide⟩

/-- C6 amended.  Exactly the calls that reach the recomputation path (the
commodity has a MARS_to_TONW row and the cache early-return guard fails)
merge the freshly computed — possibly null — entries onto the persisted
table, deduplicate by exact row equality and write the file back; the
unknown-commodity and cache-hit paths write nothing. -/
theorem C6_write_amended (env : Env) (c : String) (vl pt : List String)
    (dbg : Bool) (m : List Row)
    (hm : (marsFilter env.marsToTonw c).isEmpty = false)
    (hcond : earlyCond env.cache c vl pt = false)
    (hb : buildMapper (marsFilter env.marsToTonw c) env.tonw c vl pt = .ok m) :
    get_package_weight_map env c vl pt dbg
      = .ok ⟨some m, pyDropDuplicates (env.cache ++ m), true, missingDiag vl pt m dbg⟩ :=
  gpwm_recompute env.marsToTonw env.tonw env.cache c vl pt dbg m hm hcond hb

/-- Witness for C6_write_amended: a recomputing call writes the merged,
deduplicated cache. -/
theorem C6_write_amended_witness :
    get_package_weight_map envSack "Tomatoes" ["Roma"] ["25 lb carton"] false
      = .ok ⟨some [⟨"Tomatoes", "Roma", "25 lb carton", some 25⟩],
             [⟨"Tomatoes", "Roma", "5 lb sack", some 5⟩,
              ⟨"Tomatoes", "Roma", "25 lb carton", some 25⟩], true, []⟩ :=
  (C6_write_amended envSack "Tomatoes" ["Roma"] ["25 lb carton"] false
      [⟨"Tomatoes", "Roma", "25 lb carton", some 25⟩]
      (by decide) (by decide) (by decide)).trans (by decide)

/-- C7.  A pair whose descriptor contains neither "lb" nor "kg" as a
substring and for which the MARS_to_TONW / net-weight fallback yields
nothing resolves to a null entry, which is persisted into the cache. -/
theorem C7_unresolved_null (env : Env) (c v pkg : String) (dbg : Bool)
    (hnlb : containsSub "lb" pkg = false)
    (hnkg : containsSub "kg" pkg = false)
    (hfall : tonwFallback (marsFilter env.marsToTonw c) env.tonw v pkg = none)
    (hm : (marsFilter env.marsToTonw c).isEmpty = false)
    (hcond : earlyCond env.cache c [v] [pkg] = false) :
    get_package_weight_map env c [v] [pkg] dbg
      = .ok ⟨some [⟨c, v, pkg, none⟩],
             pyDropDuplicates (env.cache ++ [⟨c, v, pkg, none⟩]), true, []⟩
    ∧ (⟨c, v, pkg, none⟩ : Row) ∈ pyDropDuplicates (env.cache ++ [⟨c, v, pkg, none⟩]) := by
  have hres : resolvePair (marsFilter env.marsToTonw c) env.tonw v pkg = .ok none := by
    rw [resolvePair_no_unit (marsFilter env.marsToTonw c) env.tonw v pkg hnlb hnkg, hfall]
  have hb : buildMapper (marsFilter env.marsToTonw c) env.tonw c [v] [pkg]
      = .ok [⟨c, v, pkg, none⟩] := by
    rw [buildMapper_singleton, hres]
  have h3 := gpwm_recompute env.marsToTonw env.tonw env.cache c [v] [pkg] dbg
    [⟨c, v, pkg, none⟩] hm hcond hb
  have hmd : missingDiag [v] [pkg] [⟨c, v, pkg, none⟩] dbg = [] := by
    simp [missingDiag]
  rw [hmd] at h3
  exact ⟨h3, mem_pyDropDuplicates _ _
    (List.mem_append_right _ (List.mem_singleton_self _))⟩

/-- Witness for C7_unresolved_null on the descriptor "small bag". -/
theorem C7_unresolved_null_witness :
    get_package_weight_map envSimple "Tomatoes" ["Roma"] ["small bag"] false
      = .ok ⟨some [⟨"Tomatoes", "Roma", "small bag", none⟩],
             pyDropDuplicates (envSimple.cache ++ [⟨"Tomatoes", "Roma", "small bag", none⟩]),
             true, []⟩
    ∧ (⟨"Tomatoes", "Roma", "small bag", none⟩ : Row)
        ∈ pyDropDuplicates (envSimple.cache ++ [⟨"Tomatoes", "Roma", "small bag", none⟩]) :=
  C7_unresolved_null envSimple "Tomatoes" "Roma" "small bag" false
    (by decide) (by decide) (by decide) (by decide) (by decide)

/-- C8.  A descriptor containing the "lb" or "kg" unit token whose
preceding token is not a valid integer makes the resolution raise, and the
exception propagates out of get_package_weight_map instead of being
swallowed or turned into a null entry.  (On the kg side the branch raises
TypeError even before the integer parse, by the line 333 bug.) -/
theorem C8_malformed_raises (env : Env) (c v pkg : String) (i : Nat) (tok : String)
    (dbg : Bool)
    (hcase :
      (containsSub "lb" pkg = true ∧ pyIndex (pyTokens pkg) "lb" = some i)
      ∨ (containsSub "lb" pkg = false ∧ containsSub "kg" pkg = true
          ∧ pyIndex (pyTokens pkg) "kg" = some i))
    (hi : 1 ≤ i)
    (htok : (pyTokens pkg)[i - 1]? = some tok)
    (hbad : pyInt? tok = none)
    (hm : (marsFilter env.marsToTonw c).isEmpty = false)
    (hcond : earlyCond env.cache c [v] [pkg] = false) :
    ∃ e, resolvePair (marsFilter env.marsToTonw c) env.tonw v pkg = .error e
       ∧ get_package_weight_map env c [v] [pkg] dbg = .error e := by
  have key : ∀ e, resolvePair (marsFilter env.marsToTonw c) env.tonw v pkg = .error e →
      get_package_weight_map env c [v] [pkg] dbg = .error e := by
    intro e hres
    have hb : buildMapper (marsFilter env.marsToTonw c) env.tonw c [v] [pkg]
        = .error e := by
      rw [buildMapper_singleton, hres]
    exact gpwm_propagate env.marsToTonw env.tonw env.cache c [v] [pkg] dbg e hm hcond hb
  rcases hcase with ⟨hsub, hidx⟩ | ⟨hnlb, hsub, hidx⟩
  · have hres := resolvePair_lb_bad (marsFilter env.marsToTonw c) env.tonw v pkg i tok
      hsub hidx hi htok hbad
    exact ⟨.valueError, hres, key _ hres⟩
  · have hres := resolvePair_kg (marsFilter env.marsToTonw c) env.tonw v pkg i tok
      hnlb hsub hidx hi htok
    exact ⟨.typeError, hres, key _ hres⟩

/-- Witness for C8_malformed_raises on the descriptor "five lb carton". -/
theorem C8_malformed_raises_witness :
    ∃ e, resolvePair (marsFilter envSimple.marsToTonw "Tomatoes") envSimple.tonw
        "Roma" "five lb carton" = .error e
       ∧ get_package_weight_map envSimple "Tomatoes" ["Roma"] ["five lb carton"] false
          = .error e :=
  C8_malformed_raises envSimple "Tomatoes" "Roma" "five lb carton" 1 "five" false
    (Or.inl ⟨by decide, by decide⟩) (by decide) (by decide) (by decide)
    (by decide) (by decide)

/-- C9.  The descriptor "bulb pack" contains "lb" only inside the word
"bulb"; the substring test on line 330 succeeds, but no token equals "lb",
so `words_list.index("lb")` on line 331 raises ValueError instead of
falling through to the reference-table lookup or resolving to null. -/
theorem C9_substring_lb_valueerror :
    containsSub "lb" "bulb pack" = true
    ∧ pyIndex (pyTokens "bulb pack") "lb" = none
    ∧ get_package_weight_map envSimple "Tomatoes" ["Roma"] ["bulb pack"] false
        = .error .valueError :=
  ⟨by decide, by decide, by decide⟩

/-- C10.  When the cache-hit path returns early, the returned dataframe is
the cache filtered only by commodity and variety membership, not by
package; in particular every cached row of a requested variety is included
even when its package was not requested. -/
theorem C10_cache_hit_shape (env : Env) (c : String) (vl pt : List String) (dbg : Bool)
    (hm : (marsFilter env.marsToTonw c).isEmpty = false)
    (hcond : earlyCond env.cache c vl pt = true) :
    get_package_weight_map env c vl pt dbg
      = .ok ⟨some (tempFilter env.cache c vl), env.cache, false, [Diag.cacheHit]⟩
    ∧ ∀ r ∈ env.cache, r.commodity = c → r.variety ∈ vl →
        r ∈ tempFilter env.cache c vl := by
  refine ⟨gpwm_early env.marsToTonw env.tonw env.cache c vl pt dbg hm hcond, ?_⟩
  intro r hr hc1 hv1
  unfold tempFilter
  rw [List.mem_filter]
  exact ⟨hr, by simp [hc1, hv1]⟩

/-- Witness for C10_cache_hit_shape: the call requested only
"25 lb carton", yet the returned dataframe also carries the cached
"5 lb sack" row of the requested variety. -/
theorem C10_cache_hit_shape_witness :
    get_package_weight_map envTwoRows "Tomatoes" ["Roma"] ["25 lb carton"] false
      = .ok ⟨some [⟨"Tomatoes", "Roma", "5 lb sack", some 5⟩,
                   ⟨"Tomatoes", "Roma", "25 lb carton", some 25⟩],
             envTwoRows.cache, false, [Diag.cacheHit]⟩
    ∧ (⟨"Tomatoes", "Roma", "5 lb sack", some 5⟩ : Row)
        ∈ tempFilter envTwoRows.cache "Tomatoes" ["Roma"]
    ∧ "5 lb sack" ∉ ["25 lb carton"] :=
  ⟨((C10_cache_hit_shape envTwoRows "Tomatoes" ["Roma"] ["25 lb carton"] false
      (by decide) (by decide)).1).trans (by decide),
   (C10_cache_hit_shape envTwoRows "Tomatoes" ["Roma"] ["25 lb carton"] false
      (by decide) (by decide)).2
     ⟨"Tomatoes", "Roma", "5 lb sack", some 5⟩ (by decide) (by decide) (by decide),
   by decide⟩

end ProducePrices

